import Mathlib

/-!
Verification development for `fetch_podcast_transcripts.py`, a serial
transcript-acquisition batch job.  The Python source is shallowly embedded:
pure helpers become Lean functions, the stateful orchestration loop becomes a
recursive function producing an explicit trace (processed records, pacing
sleeps, counters), and the two external services (video directory, transcript
source) are modelled as oracle parameters.
-/

namespace TranscriptGrabber

/-! ## Duration Parser (`parse_iso_duration`) -/

/-- `duration.replace('PT', '')`: remove every (non-overlapping, left-to-right)
occurrence of the two-character substring `PT`. -/
def replacePT : List Char → List Char
  | 'P' :: 'T' :: rest => replacePT rest
  | c :: rest => c :: replacePT rest
  | [] => []

/-- Leftmost match of the regex `(\d+)<marker>`: the first maximal digit run
immediately followed by `marker`, returned as the decimal value of the run.
The accumulator holds the value of the digit run ending at the previous
character (`none` when the previous character was not a digit). -/
def scanNumAux (marker : Char) (acc : Option Nat) : List Char → Option Nat
  | [] => none
  | c :: rest =>
    if c = marker then
      match acc with
      | some n => some n
      | none => scanNumAux marker none rest
    else if c.isDigit then
      scanNumAux marker (some (acc.getD 0 * 10 + (c.toNat - 48))) rest
    else
      scanNumAux marker none rest

/-- `re.search(r'(\d+)H', duration)` (and the `M`/`S` variants). -/
def re_search_num (marker : Char) (s : List Char) : Option Nat :=
  scanNumAux marker none s

/-- One segment of the parser: the `if 'H' in duration: ... re.search ...`
block.  A missing marker, or a marker with no digits before it, yields 0. -/
def segment_value (marker : Char) (d : List Char) : Nat :=
  if marker ∈ d then (re_search_num marker d).getD 0 else 0

/-- `parse_iso_duration`: strip `PT`, read the hour/minute/second segments,
and total them as whole seconds. -/
def parse_iso_duration (duration : String) : Nat :=
  let d := replacePT duration.data
  let hours := segment_value 'H' d
  let minutes := segment_value 'M' d
  let seconds := segment_value 'S' d
  hours * 3600 + minutes * 60 + seconds

example : parse_iso_duration "PT1H2M30S" = 3750 := by decide
example : parse_iso_duration "PT45S" = 45 := by decide
example : parse_iso_duration "PT2H" = 7200 := by decide
example : parse_iso_duration "" = 0 := by decide

/-! ## Filename Sanitizer (`sanitize_filename`) -/

/-- The allow-list of `re.sub(r'[^\w\-_]', '', title)`: word characters
(alphanumeric or underscore, ASCII model of `\w`), hyphen, underscore. -/
def allowed_char (c : Char) : Bool :=
  c.isAlphanum || c = '-' || c = '_'

/-- `sanitize_filename`: lowercase, replace spaces by underscores, strip
characters outside the allow-list, truncate to 100 characters. -/
def sanitize_filename (title : String) : String :=
  let lowered := title.data.map Char.toLower
  let replaced := lowered.map (fun c => if c = ' ' then '_' else c)
  let stripped := replaced.filter allowed_char
  String.mk (stripped.take 100)

example : sanitize_filename "My Title!" = "my_title" := by decide

/-! ## Metadata Lister (`list_videos`)

Instants (the `publishedAt` timestamps and the cutoff) are modelled as `Int`
values; `datetime` comparison is a total order on instants.  The directory
service is modelled by its response data: the pages returned by the listing
endpoint, and a per-identifier lookup for the batched duration/visibility
request (`none` when the batch response contains no entry for that id). -/

/-- An item as it appears in a listing-endpoint response page. -/
structure VideoMeta where
  video_id : String
  title : String
  published_at : Int
deriving DecidableEq

/-- One entry of the batched `videos().list` details response:
`item['contentDetails']['duration']` and `item['status']['privacyStatus']`. -/
structure VideoDetails where
  duration_iso : String
  privacy_status : String
deriving DecidableEq

/-- `f"https://www.youtube.com/watch?v={video_id}"` -/
def video_url_of (video_id : String) : String :=
  "https://www.youtube.com/watch?v=" ++ video_id

/-- A video record after the enrichment step: the accumulated metadata plus
the parsed duration (`video['duration'] = duration`). -/
structure EnrichedVideo where
  video_id : String
  title : String
  published_at : Int
  video_url : String
  duration : Nat
deriving DecidableEq

/-- Python truthiness of an `Optional[int]`: `None` and `0` are falsy. -/
def py_truthy (b : Option Int) : Bool :=
  match b with
  | none => false
  | some m => m != 0

/-- `min_duration and duration < min_duration` -/
def py_and_lt (bound : Option Int) (duration : Nat) : Bool :=
  py_truthy bound && decide ((duration : Int) < bound.getD 0)

/-- `max_duration and duration > max_duration` -/
def py_and_gt (bound : Option Int) (duration : Nat) : Bool :=
  py_truthy bound && decide (bound.getD 0 < (duration : Int))

/-- The body of the `for video in batch` merge loop (lines 253-270): look the
id up in `details_map`; drop the record if absent, non-public, shorter than a
truthy min bound, or longer than a truthy max bound; otherwise attach the
parsed duration. -/
def enrichOne (details : String → Option VideoDetails)
    (min_duration max_duration : Option Int) (v : VideoMeta) :
    Option EnrichedVideo :=
  match details v.video_id with
  | none => none
  | some d =>
    if d.privacy_status ≠ "public" then none
    else
      let duration := parse_iso_duration d.duration_iso
      if py_and_lt min_duration duration then none
      else if py_and_gt max_duration duration then none
      else some
        { video_id := v.video_id, title := v.title,
          published_at := v.published_at,
          video_url := video_url_of v.video_id, duration := duration }

/-- The whole details/filter phase: batches of 50 are merged in input order,
so the result is the in-order `filterMap` of the per-record merge. -/
def enrich_videos (details : String → Option VideoDetails)
    (min_duration max_duration : Option Int) (videos : List VideoMeta) :
    List EnrichedVideo :=
  videos.filterMap (enrichOne details min_duration max_duration)

/-- The collection reference together with the listing pages the directory
service returns for it.  For a playlist the service applies no date filter;
for a channel the `search().list` call carries `publishedAfter`, so the pages
are whatever the service returns for that query. -/
inductive CollectionRef where
  | playlist (pages : List (List VideoMeta))
  | channel (pages : List (List VideoMeta))
deriving DecidableEq

/-- `list_videos`: accumulate the pages (the playlist branch keeps only items
with `pub_datetime >= published_after`; the channel branch keeps everything
the service returned), then enrich and filter. -/
def list_videos (ref : CollectionRef) (published_after : Int)
    (details : String → Option VideoDetails)
    (min_duration max_duration : Option Int) : List EnrichedVideo :=
  let videos := match ref with
    | .playlist pages =>
      pages.flatten.filter (fun v => decide (published_after ≤ v.published_at))
    | .channel pages => pages.flatten
  enrich_videos details min_duration max_duration videos

/-! ## Transcript Fetcher (`fetch_transcript_with_retry`)

The transcript service is an oracle mapping the attempt number to an outcome;
the jitter drawn by `random.uniform(0, backoff * 0.5)` before the `k`-th
retry sleep is an oracle `jitter k`.  Times are rationals.  The function
returns a trace: the Python return value, the number of fetch calls made, and
the list of backoff sleep durations in order. -/

/-- `MAX_RETRIES = 5` -/
def MAX_RETRIES : Nat := 5

/-- `INITIAL_BACKOFF = 5` -/
def INITIAL_BACKOFF : ℚ := 5

/-- Outcome of one `api.fetch(video_id, languages=['en'])` call: the segment
texts on success, or one of the four `except` classes (a generic exception
carries its message string). -/
inductive AttemptOutcome where
  | ok (segments : List String)
  | errNoTranscript
  | errDisabled
  | errUnavailable
  | errOther (msg : String)
deriving DecidableEq

/-- `' '.join([segment.text for segment in segments])` -/
def join_segments (segments : List String) : String :=
  String.intercalate " " segments

/-- `sub in s` for strings, on character lists. -/
def containsSub (needle : List Char) : List Char → Bool
  | [] => needle.isEmpty
  | c :: rest => needle.isPrefixOf (c :: rest) || containsSub needle rest

/-- `error_str = str(e).lower()` followed by
`'429' in error_str or 'too many requests' in error_str or 'rate' in error_str`. -/
def is_rate_limit (msg : String) : Bool :=
  let es := msg.data.map Char.toLower
  containsSub "429".data es || containsSub "too many requests".data es ||
    containsSub "rate".data es

/-- Trace of one `fetch_transcript_with_retry` run. -/
structure FetchTrace where
  result : Option String
  calls : Nat
  sleeps : List ℚ
deriving DecidableEq

/-- The `for attempt in range(max_retries + 1)` loop.  `fuel` is the number
of loop iterations still available (so the loop is entered iff `fuel > 0`);
`attempt` is the Python loop variable; `backoff` and the reversed
sleep-accumulator are the loop-carried state. -/
def fetchGo (outcomes : Nat → AttemptOutcome) (jitter : Nat → ℚ)
    (max_retries : Nat) :
    Nat → Nat → ℚ → List ℚ → FetchTrace
  | 0, attempt, _, sleeps =>
    { result := none, calls := attempt, sleeps := sleeps.reverse }
  | fuel + 1, attempt, backoff, sleeps =>
    match outcomes attempt with
    | .ok segments =>
      { result := some (join_segments segments), calls := attempt + 1,
        sleeps := sleeps.reverse }
    | .errNoTranscript =>
      { result := none, calls := attempt + 1, sleeps := sleeps.reverse }
    | .errDisabled =>
      { result := none, calls := attempt + 1, sleeps := sleeps.reverse }
    | .errUnavailable =>
      { result := none, calls := attempt + 1, sleeps := sleeps.reverse }
    | .errOther msg =>
      if is_rate_limit msg then
        if attempt < max_retries then
          fetchGo outcomes jitter max_retries fuel (attempt + 1)
            (backoff * 2) ((backoff + jitter attempt) :: sleeps)
        else
          { result := none, calls := attempt + 1, sleeps := sleeps.reverse }
      else
        { result := none, calls := attempt + 1, sleeps := sleeps.reverse }

/-- `fetch_transcript_with_retry(video_id, max_retries)`: run the loop from
`attempt = 0` with `backoff = INITIAL_BACKOFF`. -/
def fetch_transcript_with_retry (outcomes : Nat → AttemptOutcome)
    (jitter : Nat → ℚ) (max_retries : Nat := MAX_RETRIES) : FetchTrace :=
  fetchGo outcomes jitter max_retries (max_retries + 1) 0 INITIAL_BACKOFF []

/-- The error classes that `fetch_transcript_with_retry` treats as terminal
on sight: the three dedicated `except` clauses plus any generic exception
whose message does not look rate-limited. -/
def terminal_error : AttemptOutcome → Prop
  | .ok _ => False
  | .errNoTranscript => True
  | .errDisabled => True
  | .errUnavailable => True
  | .errOther msg => is_rate_limit msg = false

/-- An attempt outcome that the retry loop classifies as rate-limited. -/
def rate_limited (o : AttemptOutcome) : Prop :=
  ∃ msg, o = AttemptOutcome.errOther msg ∧ is_rate_limit msg = true

/-! ## Output Writer and Orchestrator (`write_transcript_file`,
`write_index_csv`, `main`)

`main`'s processing loop is embedded as a recursion over the video list that
produces the processed records, the pacing sleeps (tagged with the 1-based
position they follow and which `time.sleep` call ran), and the two counters.
The per-item fetch is abstracted by an oracle `fetch : String → Option
String` (the return value of `fetch_transcript_with_retry` for that id); the
`strftime('%Y-%m-%d')` date rendering is an oracle `dateFmt` on instants. -/

/-- The tri-state transcript outcome of an item record: the
`has_transcript` / `transcript_path` keys are absent until the loop sets
them. -/
inductive TranscriptOutcome where
  | notAttempted
  | succeeded (path : String)
  | failed
deriving DecidableEq

/-- An item record at index-writing time. -/
structure ProcessedVideo where
  video : EnrichedVideo
  outcome : TranscriptOutcome
deriving DecidableEq

/-- The filename built by `write_transcript_file` (also its return value):
`f"{date_str}__{video_id}__{sanitized_title}.txt"`. -/
def transcript_filename (dateFmt : Int → String) (v : EnrichedVideo) :
    String :=
  dateFmt v.published_at ++ "__" ++ v.video_id ++ "__" ++
    sanitize_filename v.title ++ ".txt"

/-- One row of `index.csv` (data fields; the header row is fixed). -/
structure IndexRow where
  video_id : String
  title : String
  published_at : Int
  video_url : String
  duration : Option Nat
  has_transcript : Bool
  transcript_path : String
deriving DecidableEq

/-- `writer.writerow({... video.get('has_transcript', False),
video.get('transcript_path', '') ...})` -/
def index_row_of (p : ProcessedVideo) : IndexRow :=
  { video_id := p.video.video_id
    title := p.video.title
    published_at := p.video.published_at
    video_url := p.video.video_url
    duration := some p.video.duration
    has_transcript :=
      match p.outcome with
      | .succeeded _ => true
      | _ => false
    transcript_path :=
      match p.outcome with
      | .succeeded path => path
      | _ => "" }

/-- `write_index_csv`: one data row per record, in list order. -/
def write_index_csv (videos : List ProcessedVideo) : List IndexRow :=
  videos.map index_row_of

/-- Python truthiness of the `Optional[str]` fetch result as tested by
`if transcript:` — `None` and the empty string are both falsy. -/
def py_truthy_str (s : Option String) : Bool :=
  match s with
  | none => false
  | some t => t != ""

/-- The body of `main`'s loop for one item: fetch, then branch on
`if transcript:` (string truthiness, so a `None` result and an empty
transcript string both take the failure branch); on the truthy branch write
the transcript file and mark the record succeeded with the file's relative
path, otherwise mark it failed with a blank path. -/
def process_one (fetch : String → Option String) (dateFmt : Int → String)
    (v : EnrichedVideo) : ProcessedVideo :=
  if py_truthy_str (fetch v.video_id) then
    { video := v, outcome := .succeeded (transcript_filename dateFmt v) }
  else
    { video := v, outcome := .failed }

/-- Which `time.sleep` call the pacing branch executed. -/
inductive PaceEvent where
  | batchPause
  | itemDelay
deriving DecidableEq

/-- Trace of `main`'s processing loop. -/
structure LoopOut where
  processed : List ProcessedVideo
  sleeps : List (Nat × PaceEvent)
  success_count : Nat
  skip_count : Nat
deriving DecidableEq

/-- `for i, video in enumerate(videos, 1)` with the pacing policy: after the
item at 1-based position `i`, if `i < total` then sleep — the batch pause
when `i % batch_size == 0`, the per-item delay otherwise. -/
def main_loop (fetch : String → Option String) (dateFmt : Int → String)
    (batch_size total : Nat) : Nat → List EnrichedVideo → LoopOut
  | _, [] => { processed := [], sleeps := [], success_count := 0, skip_count := 0 }
  | i, v :: rest =>
    let p := process_one fetch dateFmt v
    let tail := main_loop fetch dateFmt batch_size total (i + 1) rest
    let sleepsHere : List (Nat × PaceEvent) :=
      if i < total then
        [(i, if i % batch_size = 0 then .batchPause else .itemDelay)]
      else []
    { processed := p :: tail.processed
      sleeps := sleepsHere ++ tail.sleeps
      success_count :=
        (if py_truthy_str (fetch v.video_id) then 1 else 0) + tail.success_count
      skip_count :=
        (if py_truthy_str (fetch v.video_id) then 0 else 1) + tail.skip_count }

/-- Observable outcome of `main` from the point where the video list is in
hand (argument parsing, credential checks and channel resolution succeeded). -/
structure RunResult where
  exit_code : Nat
  index_written : Bool
  index_rows : List IndexRow
  processed : List ProcessedVideo
  sleeps : List (Nat × PaceEvent)
  success_count : Nat
  skip_count : Nat
deriving DecidableEq

/-- `main` after `list_videos` returns: `if not videos: sys.exit(0)` (no
index is written on that path); otherwise run the processing loop over all
items and then call `write_index_csv` unconditionally. -/
def run_main (fetch : String → Option String) (dateFmt : Int → String)
    (batch_size : Nat) (videos : List EnrichedVideo) : RunResult :=
  if videos.isEmpty then
    { exit_code := 0, index_written := false, index_rows := [],
      processed := [], sleeps := [], success_count := 0, skip_count := 0 }
  else
    let out := main_loop fetch dateFmt batch_size videos.length 1 videos
    { exit_code := 0, index_written := true,
      index_rows := write_index_csv out.processed,
      processed := out.processed, sleeps := out.sleeps,
      success_count := out.success_count, skip_count := out.skip_count }

/-! ## Concrete instances for witnesses and counterexamples -/

/-- A concrete enriched record used to instantiate witnesses. -/
def sampleVideo : EnrichedVideo :=
  { video_id := "abc123", title := "Episode 1", published_at := 100,
    video_url := video_url_of "abc123", duration := 3600 }

/-- A concrete listing-page item. -/
def cexMeta : VideoMeta :=
  { video_id := "vid1", title := "t", published_at := 0 }

/-- A details response marking every id as a 45-second public video. -/
def cexDetails : String → Option VideoDetails :=
  fun _ => some { duration_iso := "PT45S", privacy_status := "public" }

/-- A details response covering only the identifier `"vid1"`. -/
def cexDetailsOnly1 : String → Option VideoDetails :=
  fun s => if s = "vid1" then
    some { duration_iso := "PT45S", privacy_status := "public" }
  else none

/-- The enrichment of `cexMeta` under `cexDetails`. -/
def cexEnriched : EnrichedVideo :=
  { video_id := "vid1", title := "t", published_at := 0,
    video_url := video_url_of "vid1", duration := 45 }

/-! ## Theorems -/

/-- Claim C2 (counterexample): the claim states
`parse("PT1H2M30S") == 3662`, but the parser evaluates that input to
`1*3600 + 2*60 + 30 = 3750`. -/
theorem C2_counterexample : ¬ parse_iso_duration "PT1H2M30S" = 3662 := by
  decide

/-- Claim C2 (amended): the Duration Parser maps `"PT1H2M30S"` to `3750` (not
3662 as claimed), `"PT45S"` to `45`, `"PT2H"` to `7200` and `""` to `0`; a
segment whose marker is absent contributes zero, and the result is a
non-negative integer. -/
theorem C2_duration_examples :
    parse_iso_duration "PT1H2M30S" = 3750 ∧
    parse_iso_duration "PT45S" = 45 ∧
    parse_iso_duration "PT2H" = 7200 ∧
    parse_iso_duration "" = 0 ∧
    (∀ (marker : Char) (d : List Char), marker ∉ d →
      segment_value marker d = 0) ∧
    (∀ s : String, 0 ≤ (parse_iso_duration s : Int)) := by
  refine ⟨by decide, by decide, by decide, by decide, ?_,
    fun s => Int.ofNat_nonneg _⟩
  intro marker d hm
  simp [segment_value, hm]

/-- Claim C2 (witness): the amended theorem applied at `"PT45S"`, whose
stripped form has no hour marker. -/
theorem C2_witness :
    segment_value 'H' ("45S".data) = 0 ∧ 0 ≤ (parse_iso_duration "PT45S" : Int) :=
  ⟨C2_duration_examples.2.2.2.2.1 'H' "45S".data (by decide),
   C2_duration_examples.2.2.2.2.2 "PT45S"⟩

/-- Claim C5: when the first attempt fails with transcripts-disabled,
no-transcript-in-language, item-unavailable, or any other non-rate-limit
error, the Transcript Fetcher returns a terminal failure (`None`) after
exactly one fetch call, with no retry and no backoff sleep. -/
theorem C5_terminal_error_single_call (outcomes : Nat → AttemptOutcome)
    (jitter : Nat → ℚ) (max_retries : Nat)
    (h : terminal_error (outcomes 0)) :
    fetch_transcript_with_retry outcomes jitter max_retries =
      { result := none, calls := 1, sleeps := [] } := by
  unfold fetch_transcript_with_retry
  cases ho : outcomes 0 with
  | ok segments => rw [ho] at h; exact absurd h id
  | errNoTranscript => simp [fetchGo, ho]
  | errDisabled => simp [fetchGo, ho]
  | errUnavailable => simp [fetchGo, ho]
  | errOther msg =>
    rw [ho] at h
    simp only [terminal_error] at h
    simp [fetchGo, ho, h]

/-- Claim C5 (witness): a transcripts-disabled first attempt with the default
retry budget performs one call and sleeps never. -/
theorem C5_witness :
    fetch_transcript_with_retry (fun _ => AttemptOutcome.errDisabled)
      (fun _ => 0) 5 = { result := none, calls := 1, sleeps := [] } :=
  C5_terminal_error_single_call (fun _ => AttemptOutcome.errDisabled)
    (fun _ => 0) 5 True.intro

lemma char_toNat_ofNat {n : Nat} (h : n.isValidChar) :
    (Char.ofNat n).toNat = n := by
  unfold Char.ofNat
  rw [dif_pos h]
  rfl

lemma toLower_toLower (c : Char) : (Char.toLower c).toLower = Char.toLower c := by
  by_cases h : c.toNat ≥ 65 ∧ c.toNat ≤ 90
  · have hv : (c.toNat + 32).isValidChar := Or.inl (by omega)
    have h1 : Char.toLower c = Char.ofNat (c.toNat + 32) := by
      simp only [Char.toLower]
      rw [if_pos h]
    have ht : (Char.ofNat (c.toNat + 32)).toNat = c.toNat + 32 :=
      char_toNat_ofNat hv
    rw [h1]
    simp only [Char.toLower]
    rw [if_neg (by rw [ht]; omega)]
  · have h1 : Char.toLower c = c := by
      simp only [Char.toLower]
      rw [if_neg h]
    rw [h1, h1]

lemma sanitize_filename_data (title : String) :
    (sanitize_filename title).data =
      (((title.data.map Char.toLower).map
          (fun c => if c = ' ' then '_' else c)).filter allowed_char).take 100 :=
  rfl

lemma sanitize_chars (title : String) :
    ∀ c ∈ (sanitize_filename title).data,
      allowed_char c = true ∧ Char.toLower c = c := by
  intro c hc
  rw [sanitize_filename_data] at hc
  have hc' := List.take_subset _ _ hc
  have h1 := (List.mem_filter.mp hc').2
  have h2 := (List.mem_filter.mp hc').1
  refine ⟨h1, ?_⟩
  rw [List.mem_map] at h2
  obtain ⟨c', hm, heq⟩ := h2
  rw [List.mem_map] at hm
  obtain ⟨c0, _, heq0⟩ := hm
  by_cases hsp : c' = ' '
  · rw [hsp] at heq
    simp only [if_pos rfl] at heq
    rw [← heq]
    decide
  · rw [if_neg hsp] at heq
    rw [← heq, ← heq0]
    exact toLower_toLower c0

lemma sanitize_length_le (title : String) :
    (sanitize_filename title).length ≤ 100 := by
  have h : (sanitize_filename title).length =
      ((((title.data.map Char.toLower).map
          (fun c => if c = ' ' then '_' else c)).filter allowed_char).take
        100).length := rfl
  rw [h, List.length_take]
  exact min_le_left _ _

/-- Claim C8: for every input, the Filename Sanitizer's output has length at
most 100, every output character is on the allow-list (word characters,
hyphen, underscore — in particular no spaces), and the function is
idempotent. -/
theorem C8_sanitize_filename (title : String) :
    (sanitize_filename title).length ≤ 100 ∧
    (∀ c ∈ (sanitize_filename title).data, allowed_char c = true) ∧
    (∀ c ∈ (sanitize_filename title).data, c ≠ ' ') ∧
    sanitize_filename (sanitize_filename title) = sanitize_filename title := by
  refine ⟨sanitize_length_le title,
    fun c hc => (sanitize_chars title c hc).1, ?_, ?_⟩
  · intro c hc heq
    have h1 := (sanitize_chars title c hc).1
    rw [heq] at h1
    exact absurd h1 (by decide)
  · have key := sanitize_chars title
    have hmap1 : (sanitize_filename title).data.map Char.toLower =
        (sanitize_filename title).data := by
      rw [List.map_congr_left (g := id) (fun c hc => (key c hc).2)]
      exact List.map_id _
    have hmap2 : (sanitize_filename title).data.map
          (fun c => if c = ' ' then '_' else c) =
        (sanitize_filename title).data := by
      rw [List.map_congr_left (g := id) (fun c hc => ?_)]
      · exact List.map_id _
      · have h1 := (key c hc).1
        have hne : c ≠ ' ' := fun heq => by
          rw [heq] at h1; exact absurd h1 (by decide)
        simp only [if_neg hne, id]
    have hfilter : (sanitize_filename title).data.filter allowed_char =
        (sanitize_filename title).data :=
      List.filter_eq_self.mpr fun c hc => (key c hc).1
    have htake : (sanitize_filename title).data.take 100 =
        (sanitize_filename title).data :=
      List.take_of_length_le (sanitize_length_le title)
    have hfinal : sanitize_filename (sanitize_filename title) =
        String.mk (((((sanitize_filename title).data.map Char.toLower).map
          (fun c => if c = ' ' then '_' else c)).filter allowed_char).take
            100) := rfl
    rw [hfinal, hmap1, hmap2, hfilter, htake]

/-- Claim C8 (witness): the theorem at `"A b C"`, with the allow-list facts
instantiated at the output character `'a'`. -/
theorem C8_witness :
    (sanitize_filename "A b C").length ≤ 100 ∧
    allowed_char 'a' = true ∧ ('a' : Char) ≠ ' ' ∧
    sanitize_filename (sanitize_filename "A b C") = sanitize_filename "A b C" :=
  ⟨(C8_sanitize_filename "A b C").1,
   (C8_sanitize_filename "A b C").2.1 'a' (by decide),
   (C8_sanitize_filename "A b C").2.2.1 'a' (by decide),
   (C8_sanitize_filename "A b C").2.2.2⟩

lemma fetchGo_rate_limited (outcomes : Nat → AttemptOutcome)
    (jitter : Nat → ℚ) (max_retries : Nat)
    (hrl : ∀ k, k ≤ max_retries → rate_limited (outcomes k)) :
    ∀ (n a : Nat), a + n = max_retries → ∀ (b : ℚ) (acc : List ℚ),
      fetchGo outcomes jitter max_retries (n + 1) a b acc =
        { result := none, calls := max_retries + 1,
          sleeps := acc.reverse ++
            (List.range n).map (fun k => b * 2 ^ k + jitter (a + k)) } := by
  intro n
  induction n with
  | zero =>
    intro a ha b acc
    obtain ⟨msg, hmsg, hrate⟩ := hrl a (by omega)
    have hnlt : ¬ a < max_retries := by omega
    simp [fetchGo, hmsg, hrate, hnlt, ha]
    omega
  | succ n ih =>
    intro a ha b acc
    obtain ⟨msg, hmsg, hrate⟩ := hrl a (by omega)
    have hlt : a < max_retries := by omega
    have hstep : fetchGo outcomes jitter max_retries (n + 1 + 1) a b acc =
        fetchGo outcomes jitter max_retries (n + 1) (a + 1) (b * 2)
          ((b + jitter a) :: acc) := by
      simp [fetchGo, hmsg, hrate, hlt]
    rw [hstep, ih (a + 1) (by omega) (b * 2) ((b + jitter a) :: acc)]
    have hlist : ((b + jitter a) :: acc).reverse ++
          (List.range n).map (fun k => b * 2 * 2 ^ k + jitter (a + 1 + k)) =
        acc.reverse ++
          (List.range (n + 1)).map (fun k => b * 2 ^ k + jitter (a + k)) := by
      rw [List.range_succ_eq_map, List.map_cons, List.map_map]
      have hfun : (fun k => b * 2 ^ k + jitter (a + k)) ∘ Nat.succ =
          fun k => b * 2 * 2 ^ k + jitter (a + 1 + k) := by
        funext k
        have harg : a + (k + 1) = a + 1 + k := by omega
        simp only [Function.comp, Nat.succ_eq_add_one, harg, pow_succ]
        ring_nf
      rw [hfun]
      simp [List.reverse_cons]
    rw [hlist]

/-- Claim C3: when every attempt is rate-limited, the Transcript Fetcher makes
exactly `max_retries + 1` fetch calls and returns a terminal failure; the
`k`-th backoff sleep (0-based) lasts `5 * 2^k + jitter_k`, i.e. backoff
starts at 5 and doubles after each rate-limited attempt, and with the jitter
drawn from `[0, backoff/2]` each sleep lies in `[5*2^k, 5*2^k + 5*2^k/2]`,
bounds that are strictly increasing between successive retries. -/
theorem C3_rate_limit_exhaustion (outcomes : Nat → AttemptOutcome)
    (jitter : Nat → ℚ) (max_retries : Nat)
    (hrl : ∀ k, k ≤ max_retries → rate_limited (outcomes k))
    (hj : ∀ k, 0 ≤ jitter k ∧ jitter k ≤ 5 * 2 ^ k / 2) :
    (fetch_transcript_with_retry outcomes jitter max_retries).result = none ∧
    (fetch_transcript_with_retry outcomes jitter max_retries).calls =
      max_retries + 1 ∧
    (fetch_transcript_with_retry outcomes jitter max_retries).sleeps =
      (List.range max_retries).map (fun k => 5 * 2 ^ k + jitter k) ∧
    (∀ k, k < max_retries →
      (fetch_transcript_with_retry outcomes jitter max_retries).sleeps[k]? =
        some (5 * 2 ^ k + jitter k) ∧
      (5 * 2 ^ k : ℚ) ≤ 5 * 2 ^ k + jitter k ∧
      (5 * 2 ^ k + jitter k : ℚ) ≤ 5 * 2 ^ k + 5 * 2 ^ k / 2) ∧
    (∀ k : Nat, (5 * 2 ^ k : ℚ) < 5 * 2 ^ (k + 1) ∧
      (5 * 2 ^ k + 5 * 2 ^ k / 2 : ℚ) <
        5 * 2 ^ (k + 1) + 5 * 2 ^ (k + 1) / 2) := by
  have hrun : fetch_transcript_with_retry outcomes jitter max_retries =
      { result := none, calls := max_retries + 1,
        sleeps := (List.range max_retries).map
          (fun k => 5 * 2 ^ k + jitter k) } := by
    have h := fetchGo_rate_limited outcomes jitter max_retries hrl
      max_retries 0 (by omega) INITIAL_BACKOFF []
    rw [fetch_transcript_with_retry, h]
    simp [INITIAL_BACKOFF]
  refine ⟨by rw [hrun], by rw [hrun], by rw [hrun], ?_, ?_⟩
  · intro k hk
    refine ⟨?_, ?_, ?_⟩
    · rw [hrun]
      simp only [List.getElem?_map, List.getElem?_range hk]
      rfl
    · have := (hj k).1
      linarith
    · have := (hj k).2
      linarith
  · intro k
    have hp : (0 : ℚ) < 2 ^ k := by positivity
    constructor <;> · rw [pow_succ]; nlinarith

/-- Claim C3 (witness): with the default budget of 5 retries, an
always-rate-limited transcript service (HTTP 429 message) and zero jitter,
the fetcher makes exactly 6 calls, returns `None`, and sleeps
`5, 10, 20, 40, 80`. -/
theorem C3_witness :
    (fetch_transcript_with_retry
        (fun _ => AttemptOutcome.errOther "HTTP Error 429: Too Many Requests")
        (fun _ => 0) 5).result = none ∧
    (fetch_transcript_with_retry
        (fun _ => AttemptOutcome.errOther "HTTP Error 429: Too Many Requests")
        (fun _ => 0) 5).calls = 6 ∧
    (fetch_transcript_with_retry
        (fun _ => AttemptOutcome.errOther "HTTP Error 429: Too Many Requests")
        (fun _ => 0) 5).sleeps = [5, 10, 20, 40, 80] := by
  have h := C3_rate_limit_exhaustion
    (fun _ => AttemptOutcome.errOther "HTTP Error 429: Too Many Requests")
    (fun _ => 0) 5
    (fun k _ => ⟨"HTTP Error 429: Too Many Requests", rfl, by decide⟩)
    (fun k => ⟨le_refl 0, by positivity⟩)
  refine ⟨h.1, h.2.1, ?_⟩
  rw [h.2.2.1]
  simp [List.range_succ]
  norm_num

lemma main_loop_processed (fetch : String → Option String)
    (dateFmt : Int → String) (batch_size total : Nat) :
    ∀ (vs : List EnrichedVideo) (i : Nat),
      (main_loop fetch dateFmt batch_size total i vs).processed =
        vs.map (process_one fetch dateFmt) := by
  intro vs
  induction vs with
  | nil => intro i; rfl
  | cons v rest ih =>
    intro i
    simp [main_loop, ih]

lemma main_loop_sleeps (fetch : String → Option String)
    (dateFmt : Int → String) (batch_size total : Nat) :
    ∀ (vs : List EnrichedVideo) (i : Nat), i + vs.length = total + 1 →
      (main_loop fetch dateFmt batch_size total i vs).sleeps =
        (List.range' i (vs.length - 1)).map
          (fun p => (p, if p % batch_size = 0 then PaceEvent.batchPause
            else PaceEvent.itemDelay)) := by
  intro vs
  induction vs with
  | nil => intro i _; rfl
  | cons v rest ih =>
    intro i h
    have hstep : (main_loop fetch dateFmt batch_size total i (v :: rest)).sleeps =
        (if i < total then
          [(i, if i % batch_size = 0 then PaceEvent.batchPause
            else PaceEvent.itemDelay)]
         else []) ++
          (main_loop fetch dateFmt batch_size total (i + 1) rest).sleeps := rfl
    cases rest with
    | nil =>
      have hi : ¬ i < total := by simp at h; omega
      rw [hstep, if_neg hi]
      rfl
    | cons w rest' =>
      have hlt : i < total := by simp at h; omega
      have hih := ih (i + 1) (by simp at h ⊢; omega)
      rw [hstep, if_pos hlt, hih]
      simp only [List.length_cons, Nat.add_sub_cancel]
      rw [List.range'_succ]
      simp

lemma run_main_processed (fetch : String → Option String)
    (dateFmt : Int → String) (batch_size : Nat)
    (videos : List EnrichedVideo) :
    (run_main fetch dateFmt batch_size videos).processed =
      videos.map (process_one fetch dateFmt) := by
  cases videos with
  | nil => rfl
  | cons v rest =>
    rw [run_main, if_neg (by simp)]
    exact main_loop_processed fetch dateFmt batch_size _ _ _

lemma run_main_index_rows (fetch : String → Option String)
    (dateFmt : Int → String) (batch_size : Nat)
    (videos : List EnrichedVideo) :
    (run_main fetch dateFmt batch_size videos).index_rows =
      videos.map (fun v => index_row_of (process_one fetch dateFmt v)) := by
  cases videos with
  | nil => rfl
  | cons v rest =>
    rw [run_main, if_neg (by simp)]
    show write_index_csv (main_loop fetch dateFmt batch_size _ 1 _).processed = _
    rw [write_index_csv, main_loop_processed, List.map_map]
    rfl

lemma run_main_sleeps (fetch : String → Option String)
    (dateFmt : Int → String) (batch_size : Nat)
    (videos : List EnrichedVideo) :
    (run_main fetch dateFmt batch_size videos).sleeps =
      (List.range' 1 (videos.length - 1)).map
        (fun p => (p, if p % batch_size = 0 then PaceEvent.batchPause
          else PaceEvent.itemDelay)) := by
  cases videos with
  | nil => rfl
  | cons v rest =>
    rw [run_main, if_neg (by simp)]
    exact main_loop_sleeps fetch dateFmt batch_size _ _ 1 (by simp; omega)

/-- Claim C1 (counterexample): with zero items the run does NOT write the
index file — `main` prints a message and exits (code 0) before
`write_index_csv` is reached — contradicting the claim that the index is
still written with zero data rows. -/
theorem C1_counterexample :
    ¬ (run_main (fun _ => none) (fun _ => "") 10 []).index_written = true := by
  decide

/-- Claim C1 (amended): if the Metadata Lister returns zero items the run
exits successfully (code 0) but writes no index file; when at least one item
enters the processing loop, the index artifact is written unconditionally
after the loop, even if zero transcripts succeeded. -/
theorem C1_index_written (fetch : String → Option String)
    (dateFmt : Int → String) (batch_size : Nat) :
    ((run_main fetch dateFmt batch_size []).exit_code = 0 ∧
     (run_main fetch dateFmt batch_size []).index_written = false) ∧
    (∀ videos : List EnrichedVideo, videos ≠ [] →
      (run_main fetch dateFmt batch_size videos).index_written = true ∧
      (run_main fetch dateFmt batch_size videos).exit_code = 0) := by
  refine ⟨⟨rfl, rfl⟩, ?_⟩
  intro videos hne
  rw [run_main, if_neg (by simpa using hne)]
  exact ⟨rfl, rfl⟩

/-- Claim C1 (witness): with a single item whose transcript fetch fails, the
index is still written and the run exits 0. -/
theorem C1_witness :
    (run_main (fun _ => none) (fun _ => "") 10 [sampleVideo]).index_written =
      true ∧
    (run_main (fun _ => none) (fun _ => "") 10 [sampleVideo]).exit_code = 0 :=
  (C1_index_written (fun _ => none) (fun _ => "") 10).2 [sampleVideo]
    (by simp)

/-- Claim C6: the pacing policy sleeps after every item except the last — the
batch pause when the item's 1-based position is a multiple of the batch
size, the per-item delay otherwise; in particular with 12 items and batch
size 10 the batch pause occurs only after item 10, the per-item delay after
items 1–9 and 11, and nothing after item 12. -/
theorem C6_pacing (fetch : String → Option String) (dateFmt : Int → String)
    (batch_size : Nat) (videos : List EnrichedVideo) :
    ((run_main fetch dateFmt batch_size videos).sleeps =
      (List.range' 1 (videos.length - 1)).map
        (fun p => (p, if p % batch_size = 0 then PaceEvent.batchPause
          else PaceEvent.itemDelay))) ∧
    (run_main (fun _ => none) (fun _ => "") 10
        (List.replicate 12 sampleVideo)).sleeps =
      [(1, .itemDelay), (2, .itemDelay), (3, .itemDelay), (4, .itemDelay),
       (5, .itemDelay), (6, .itemDelay), (7, .itemDelay), (8, .itemDelay),
       (9, .itemDelay), (10, .batchPause), (11, .itemDelay)] := by
  refine ⟨run_main_sleeps fetch dateFmt batch_size videos, ?_⟩
  rw [run_main_sleeps]
  decide

/-- Claim C7: the index artifact has exactly one data row per item that
entered the processing loop, in loop order; a row's transcript outcome is
final — flag true with the artifact's relative path when the fetch produced
a truthy (non-`None`, non-empty) transcript, flag false with a blank path
otherwise — and no record reaching the index writer is still in the
not-attempted state. -/
theorem C7_index_outcomes (fetch : String → Option String)
    (dateFmt : Int → String) (batch_size : Nat)
    (videos : List EnrichedVideo) :
    (run_main fetch dateFmt batch_size videos).index_rows.length =
      videos.length ∧
    (∀ (k : Nat) (v : EnrichedVideo) (row : IndexRow),
      videos[k]? = some v →
      (run_main fetch dateFmt batch_size videos).index_rows[k]? = some row →
      row.video_id = v.video_id ∧
      (py_truthy_str (fetch v.video_id) = true →
        row.has_transcript = true ∧
        row.transcript_path = transcript_filename dateFmt v) ∧
      (py_truthy_str (fetch v.video_id) = false →
        row.has_transcript = false ∧ row.transcript_path = "")) ∧
    (∀ p ∈ (run_main fetch dateFmt batch_size videos).processed,
      p.outcome ≠ TranscriptOutcome.notAttempted) := by
  refine ⟨?_, ?_, ?_⟩
  · rw [run_main_index_rows, List.length_map]
  · intro k v row hv hrow
    rw [run_main_index_rows, List.getElem?_map, hv] at hrow
    have hrow' : row = index_row_of (process_one fetch dateFmt v) := by
      cases hrow
      rfl
    subst hrow'
    cases hf : py_truthy_str (fetch v.video_id) with
    | true =>
      refine ⟨?_, fun _ => ?_, fun hn => Bool.noConfusion hn⟩
      · simp [index_row_of, process_one, hf]
      · constructor <;> simp [index_row_of, process_one, hf]
    | false =>
      refine ⟨?_, fun hs => Bool.noConfusion hs, fun _ => ?_⟩
      · simp [index_row_of, process_one, hf]
      · constructor <;> simp [index_row_of, process_one, hf]
  · intro p hp
    rw [run_main_processed, List.mem_map] at hp
    obtain ⟨v, _, hv⟩ := hp
    rw [← hv]
    cases hf : py_truthy_str (fetch v.video_id) <;> simp [process_one, hf]

/-- Claim C7 (witness): a one-item run whose fetch fails yields one row with
flag false and a blank path. -/
theorem C7_witness :
    (run_main (fun _ => none) (fun _ => "2024-01-01") 10
        [sampleVideo]).index_rows.length = 1 ∧
    (index_row_of (process_one (fun _ => none) (fun _ => "2024-01-01")
        sampleVideo)).video_id = sampleVideo.video_id ∧
    (index_row_of (process_one (fun _ => none) (fun _ => "2024-01-01")
        sampleVideo)).has_transcript = false ∧
    (index_row_of (process_one (fun _ => none) (fun _ => "2024-01-01")
        sampleVideo)).transcript_path = "" := by
  have h := C7_index_outcomes (fun _ => none) (fun _ => "2024-01-01") 10
    [sampleVideo]
  have h2 := h.2.1 0 sampleVideo
    (index_row_of (process_one (fun _ => none) (fun _ => "2024-01-01")
      sampleVideo)) (by decide) (by decide)
  exact ⟨h.1, h2.1, (h2.2.2 rfl).1, (h2.2.2 rfl).2⟩

lemma enrichOne_some {details : String → Option VideoDetails}
    {min_d max_d : Option Int} {v : VideoMeta} {ev : EnrichedVideo}
    (h : enrichOne details min_d max_d v = some ev) :
    ∃ d, details v.video_id = some d ∧ d.privacy_status = "public" ∧
      ev = { video_id := v.video_id, title := v.title,
             published_at := v.published_at,
             video_url := video_url_of v.video_id,
             duration := parse_iso_duration d.duration_iso } ∧
      py_and_lt min_d (parse_iso_duration d.duration_iso) = false ∧
      py_and_gt max_d (parse_iso_duration d.duration_iso) = false := by
  cases hd : details v.video_id with
  | none =>
    unfold enrichOne at h
    rw [hd] at h
    exact Option.noConfusion h
  | some d =>
    simp only [enrichOne, hd] at h
    split at h
    next hpriv => exact Option.noConfusion h
    next hpriv =>
      split at h
      next hlt => exact Option.noConfusion h
      next hlt =>
        split at h
        next hgt => exact Option.noConfusion h
        next hgt =>
          refine ⟨d, rfl, by simpa using hpriv, ?_, by simpa using hlt,
            by simpa using hgt⟩
          exact (Option.some.inj h).symm

lemma py_and_lt_false_min {m : Int} {dur : Nat}
    (h : py_and_lt (some m) dur = false) : m ≤ (dur : Int) := by
  simp only [py_and_lt, py_truthy, Option.getD_some, Bool.and_eq_false_iff] at h
  rcases h with h | h
  · have : m = 0 := by simpa using h
    omega
  · have : ¬ ((dur : Int) < m) := by simpa using h
    omega

lemma py_and_gt_false_max {m : Int} {dur : Nat}
    (h : py_and_gt (some m) dur = false) (hm : m ≠ 0) : (dur : Int) ≤ m := by
  simp only [py_and_gt, py_truthy, Option.getD_some, Bool.and_eq_false_iff] at h
  rcases h with h | h
  · exact absurd (by simpa using h) hm
  · have : ¬ (m < (dur : Int)) := by simpa using h
    omega

/-- Claim C4 (counterexample): with a maximum-duration bound set to `some 0`
the guard `max_duration and duration > max_duration` is falsy, so a
45-second public item is returned even though its duration exceeds the
bound, contradicting `duration ≤ max_duration` for a set bound. -/
theorem C4_counterexample :
    ∃ ev ∈ list_videos (CollectionRef.playlist [[cexMeta]]) 0 cexDetails
      none (some 0), ¬ ((ev.duration : Int) ≤ 0) := by
  decide

/-- Claim C4 (amended): every record returned by the Metadata Lister satisfies
`published_at ≥ cutoff` (inclusively: an instant-equal playlist item that
survives enrichment is included), its details lookup is public, its duration
is the parsed details duration, `duration ≥ min_duration` whenever a min
bound is set, and `duration ≤ max_duration` whenever a max bound is set to a
nonzero value.  For the channel branch the directory service is assumed to
honour the `publishedAfter` parameter. -/
theorem C4_lister_postconditions (ref : CollectionRef) (cutoff : Int)
    (details : String → Option VideoDetails) (min_d max_d : Option Int)
    (hch : ∀ pages, ref = CollectionRef.channel pages →
      ∀ v ∈ pages.flatten, cutoff ≤ v.published_at) :
    (∀ ev ∈ list_videos ref cutoff details min_d max_d,
      cutoff ≤ ev.published_at ∧
      (∃ d, details ev.video_id = some d ∧ d.privacy_status = "public" ∧
        ev.duration = parse_iso_duration d.duration_iso) ∧
      (∀ m, min_d = some m → m ≤ (ev.duration : Int)) ∧
      (∀ m, max_d = some m → m ≠ 0 → (ev.duration : Int) ≤ m)) ∧
    (∀ (pages : List (List VideoMeta)) (v : VideoMeta),
      ref = CollectionRef.playlist pages →
      v ∈ pages.flatten → v.published_at = cutoff →
      ∀ ev, enrichOne details min_d max_d v = some ev →
        ev ∈ list_videos ref cutoff details min_d max_d) := by
  constructor
  · intro ev hev
    have hmain : ∃ v : VideoMeta, (∃ d, details v.video_id = some d ∧
        d.privacy_status = "public" ∧
        ev = { video_id := v.video_id, title := v.title,
               published_at := v.published_at,
               video_url := video_url_of v.video_id,
               duration := parse_iso_duration d.duration_iso } ∧
        py_and_lt min_d (parse_iso_duration d.duration_iso) = false ∧
        py_and_gt max_d (parse_iso_duration d.duration_iso) = false) ∧
        cutoff ≤ v.published_at := by
      cases ref with
      | playlist pages =>
        simp only [list_videos, enrich_videos] at hev
        obtain ⟨v, hv, henr⟩ := List.mem_filterMap.mp hev
        obtain ⟨hvmem, hdate⟩ := List.mem_filter.mp hv
        exact ⟨v, enrichOne_some henr, of_decide_eq_true hdate⟩
      | channel pages =>
        simp only [list_videos, enrich_videos] at hev
        obtain ⟨v, hv, henr⟩ := List.mem_filterMap.mp hev
        exact ⟨v, enrichOne_some henr, hch pages rfl v hv⟩
    obtain ⟨v, ⟨d, hd, hpub, hev_eq, hmin, hmax⟩, hdate⟩ := hmain
    subst hev_eq
    refine ⟨hdate, ⟨d, hd, hpub, rfl⟩, ?_, ?_⟩
    · intro m hm
      rw [hm] at hmin
      exact py_and_lt_false_min hmin
    · intro m hm hm0
      rw [hm] at hmax
      exact py_and_gt_false_max hmax hm0
  · intro pages v href hvmem hpub ev henr
    subst href
    simp only [list_videos, enrich_videos]
    refine List.mem_filterMap.mpr ⟨v, ?_, henr⟩
    refine List.mem_filter.mpr ⟨hvmem, decide_eq_true ?_⟩
    rw [hpub]

/-- Claim C4 (witness): the amended theorem applied to a 45-second public
playlist item published exactly at the cutoff, with no min bound and a max
bound of 100. -/
theorem C4_witness :
    (0 : Int) ≤ cexEnriched.published_at ∧
    (∃ d, cexDetails cexEnriched.video_id = some d ∧
      d.privacy_status = "public" ∧
      cexEnriched.duration = parse_iso_duration d.duration_iso) ∧
    (∀ m, (none : Option Int) = some m → m ≤ (cexEnriched.duration : Int)) ∧
    (∀ m, (some 100 : Option Int) = some m → m ≠ 0 →
      (cexEnriched.duration : Int) ≤ m) :=
  (C4_lister_postconditions (CollectionRef.playlist [[cexMeta]]) 0 cexDetails
    none (some 100) (fun pages h => by cases h)).1 cexEnriched (by decide)

/-- Claim C9: a duration bound equal to 0 is treated as if no bound were set —
the guard tests truthiness — so the listing result with bound `some 0` is
the same as with `none`, and in particular the `some 0` max filter excludes
no duration. -/
theorem C9_zero_bound_is_unset (ref : CollectionRef) (cutoff : Int)
    (details : String → Option VideoDetails) (min_d max_d : Option Int) :
    list_videos ref cutoff details (some 0) max_d =
      list_videos ref cutoff details none max_d ∧
    list_videos ref cutoff details min_d (some 0) =
      list_videos ref cutoff details min_d none ∧
    (∀ dur : Nat, py_and_gt (some 0) dur = false) ∧
    (∀ dur : Nat, py_and_lt (some 0) dur = false) := by
  have hmin : enrichOne details (some 0) max_d = enrichOne details none max_d := by
    funext v
    simp only [enrichOne]
    cases details v.video_id with
    | none => rfl
    | some d => rfl
  have hmax : enrichOne details min_d (some 0) = enrichOne details min_d none := by
    funext v
    simp only [enrichOne]
    cases details v.video_id with
    | none => rfl
    | some d => rfl
  refine ⟨?_, ?_, fun dur => rfl, fun dur => rfl⟩
  · simp only [list_videos, enrich_videos, hmin]
  · simp only [list_videos, enrich_videos, hmax]

/-- Claim C10: an accumulated item whose identifier is absent from the batch
details response is dropped from the Metadata Lister's result: no returned
record carries its identifier, and no index row of a run over that result
does either. -/
theorem C10_missing_details_dropped (ref : CollectionRef) (cutoff : Int)
    (details : String → Option VideoDetails) (min_d max_d : Option Int)
    (vid : String) (h : details vid = none) :
    (∀ ev ∈ list_videos ref cutoff details min_d max_d,
      ev.video_id ≠ vid) ∧
    (∀ (fetch : String → Option String) (dateFmt : Int → String)
      (batch_size : Nat),
      ∀ row ∈ (run_main fetch dateFmt batch_size
          (list_videos ref cutoff details min_d max_d)).index_rows,
        row.video_id ≠ vid) := by
  have hpart1 : ∀ ev ∈ list_videos ref cutoff details min_d max_d,
      ev.video_id ≠ vid := by
    intro ev hev heq
    have hmem : ∃ v, enrichOne details min_d max_d v = some ev := by
      cases ref with
      | playlist pages =>
        simp only [list_videos, enrich_videos] at hev
        obtain ⟨v, _, henr⟩ := List.mem_filterMap.mp hev
        exact ⟨v, henr⟩
      | channel pages =>
        simp only [list_videos, enrich_videos] at hev
        obtain ⟨v, _, henr⟩ := List.mem_filterMap.mp hev
        exact ⟨v, henr⟩
    obtain ⟨v, henr⟩ := hmem
    obtain ⟨d, hd, _, hev_eq, _, _⟩ := enrichOne_some henr
    have hvid : v.video_id = vid := by rw [hev_eq] at heq; exact heq
    rw [hvid, h] at hd
    cases hd
  refine ⟨hpart1, ?_⟩
  intro fetch dateFmt batch_size row hrow
  rw [run_main_index_rows, List.mem_map] at hrow
  obtain ⟨ev, hev, hrow_eq⟩ := hrow
  have : row.video_id = ev.video_id := by
    rw [← hrow_eq]
    cases hb : py_truthy_str (fetch ev.video_id) <;>
      simp [index_row_of, process_one, hb]
  rw [this]
  exact hpart1 ev hev

/-- Claim C10 (witness): with a details response covering only `"vid1"`, the
record returned for the sample playlist does not carry the missing
identifier `"vid2"`. -/
theorem C10_witness : cexEnriched.video_id ≠ "vid2" :=
  (C10_missing_details_dropped (CollectionRef.playlist [[cexMeta]]) 0
    cexDetailsOnly1 none none "vid2" (by decide)).1 cexEnriched (by decide)

end TranscriptGrabber
